import Mathlib

/-!
Shallow embedding of the update pipeline of `src/updater.py`
(Digital-Kalva-Carshed/dkc_updater) together with proofs of the
specification claims about it.

The embedding follows the source line by line:

* `is_newer_version`      — updater.py lines 411-420 (version comparison)
* `check_for_updates`     — updater.py lines 365-409 (manifest check)
* `download_update`       — updater.py lines 422-437 (download trigger guard)
* `DownloadThread.run`    — updater.py lines 135-160 (streaming download)
* `copy_with_overwrite`   — updater.py lines 506-521 (merge-install)
* `install_update`        — updater.py lines 459-504 (extract + merge + version bump)

External effects (HTTP, the zip library, the filesystem) are passed in as
explicit data: an HTTP response is a record of status/chunks, the zip
extraction result is an `Option` (none = the extraction raised), and
directories are finite labelled trees.
-/

namespace DkcUpdater

/-! ### Version comparison (`is_newer_version`, updater.py 411-420)

Python's `version.split('.')` is modelled on the character list, and
`int(s)` is modelled as: strip whitespace, optional sign, then decimal
digits (Python's underscore separators and non-ASCII digit forms are not
modelled; no claim depends on them). -/

/-- Model of Python `str.split('.')`: split the character list at every
dot, keeping empty pieces. The accumulator holds the current piece in
reverse. -/
def splitDotAux : List Char → List Char → List (List Char)
  | [], acc => [acc.reverse]
  | c :: rest, acc =>
    if c = '.' then acc.reverse :: splitDotAux rest []
    else splitDotAux rest (c :: acc)

def splitDot (s : String) : List (List Char) :=
  splitDotAux s.data []

/-- Strip leading and trailing whitespace, as Python `int` does before
parsing. -/
def trimChars (cs : List Char) : List Char :=
  ((cs.dropWhile Char.isWhitespace).reverse.dropWhile Char.isWhitespace).reverse

/-- Decimal value of a nonempty all-digit character list, `none` otherwise. -/
def digitsVal (cs : List Char) : Option Nat :=
  if cs.isEmpty then none
  else if cs.all Char.isDigit then
    some (cs.foldl (fun acc c => acc * 10 + (c.toNat - 48)) 0)
  else none

/-- Model of Python `int(s)` on one dot-separated component: optional
sign followed by decimal digits, surrounding whitespace ignored;
`none` models the `ValueError` that the bare `except` of
`is_newer_version` catches. -/
def pyIntOfChars (cs0 : List Char) : Option Int :=
  match trimChars cs0 with
  | '-' :: rest => (digitsVal rest).map (fun n => -(n : Int))
  | '+' :: rest => (digitsVal rest).map (fun n => (n : Int))
  | cs => (digitsVal cs).map (fun n => (n : Int))

/-- Model of `tuple(map(int, ...))`: every component must parse, any
failure poisons the whole tuple. -/
def parseComponents : List (List Char) → Option (List Int)
  | [] => some []
  | c :: rest =>
    match pyIntOfChars c, parseComponents rest with
    | some v, some vs => some (v :: vs)
    | _, _ => none

/-- Model of `tuple(map(int, version.split('.')))` of updater.py lines 415/416. -/
def parseVersion (s : String) : Option (List Int) :=
  parseComponents (splitDot s)

/-- Python tuple comparison `ver_a > ver_b`: componentwise, first
difference decides; a proper prefix is smaller than the longer tuple. -/
def pyTupleGt : List Int → List Int → Bool
  | _ :: _, [] => true
  | [], _ => false
  | v :: vs, w :: ws =>
    if w < v then true
    else if v < w then false
    else pyTupleGt vs ws

/-- updater.py lines 411-420: compare parsed tuples; on any parse
failure fall back to the string inequality `version_a != version_b`. -/
def is_newer_version (version_a version_b : String) : Bool :=
  match parseVersion version_a, parseVersion version_b with
  | some va, some vb => pyTupleGt va vb
  | _, _ => version_a != version_b

/-! ### Manifest check (`check_for_updates`, updater.py 365-409)

The HTTP layer is passed in as data: `FetchOutcome.fetchError` models
`requests.get` raising, `raise_for_status` raising, or `response.json()`
raising (all land in the same `except` block); `FetchOutcome.ok` carries
the parsed JSON body, whose fields may individually be absent
(`update_info.get` returns `None` for a missing key). -/

/-- Parsed manifest body; each field is `none` when the key is absent. -/
structure ManifestJson where
  version : Option String
  download_url : Option String
  notes : Option String

inductive FetchOutcome where
  | fetchError (msg : String)
  | ok (m : ManifestJson)

/-- The attributes of `UpdaterApp` that `check_for_updates` reads or
writes, plus the status line and the widget flags it toggles. -/
structure CheckState where
  update_available : Bool
  update_url : Option String
  update_notes : String
  download_btn_enabled : Bool
  notes_visible : Bool
  status : String

/-- Python string interpolation of an optional value: `None` prints as
the literal text `None`. -/
def pyStrOpt : Option String → String
  | none => "None"
  | some s => s

/-- Model of `is_newer_version(latest_version, current_version)` where
`latest_version` may be `None`: `None.split` raises `AttributeError`,
the bare `except` catches it, and the fallback `None != current` is
always `True` against a string. -/
def isNewerPy : Option String → String → Bool
  | none, _ => true
  | some a, b => is_newer_version a b

/-- updater.py lines 365-409. `current` is `config["current_version"]`;
the splash screen, version label and message boxes are not modelled. -/
def check_for_updates (st : CheckState) (current : String)
    (outcome : FetchOutcome) : CheckState :=
  let st1 : CheckState :=
    { st with status := "Checking for updates...",
              download_btn_enabled := false, notes_visible := false }
  match outcome with
  | .fetchError _ => { st1 with status := "Error checking for updates" }
  | .ok m =>
    let st2 : CheckState :=
      { st1 with update_url := m.download_url,
                 update_notes := m.notes.getD "" }
    if isNewerPy m.version current then
      { st2 with
          status := "Update available: v" ++ pyStrOpt m.version,
          download_btn_enabled := true,
          update_available := true,
          notes_visible := st2.update_notes != "" }
    else
      { st2 with
          status := "You have the latest version (v" ++ current ++ ")",
          update_available := false }

/-! ### Download trigger (`download_update`, updater.py 422-437) -/

/-- The attributes `download_update` reads or writes. `started = some u`
records that a `DownloadThread` for url `u` was created and started. -/
structure DlState where
  update_available : Bool
  update_url : Option String
  progress_value : Nat
  progress_visible : Bool
  check_btn_enabled : Bool
  download_btn_enabled : Bool
  started : Option String

/-- Python truthiness of `self.update_url`: falsy when the attribute is
`None` or the empty string. -/
def pyFalsyUrl : Option String → Bool
  | none => true
  | some s => s == ""

/-- updater.py lines 422-437: the guard at line 424 returns before any
widget or state is touched; otherwise the progress bar is reset and a
download worker is started. -/
def download_update (st : DlState) : DlState :=
  if !st.update_available || pyFalsyUrl st.update_url then st
  else
    { st with progress_value := 0, progress_visible := true,
              check_btn_enabled := false, download_btn_enabled := false,
              started := st.update_url }

/-! ### Streaming download (`DownloadThread.run`, updater.py 135-160)

The thread communicates only through its three Qt signals, modelled as
an ordered event list. The HTTP response is passed in as data:
`statusOk` is the `raise_for_status` outcome, `chunks` the sizes of the
chunks `iter_content` yields, and `midError` a network error raised by
the iterator after those chunks. -/

inductive Ev where
  | status (s : String)
  | statusDownloading (bytes : Nat)
  | progress (pct : Nat)
  | completed (ok : Bool) (payload : String)

structure HttpResp where
  statusOk : Bool
  errText : String
  totalSize : Nat
  chunks : List Nat
  midError : Option String

/-- What `run` leaves behind: the emitted signals in order, whether the
destination file was opened, and how many bytes were written to it. -/
structure RunResult where
  events : List Ev
  fileOpened : Bool
  bytesWritten : Nat

/-- The chunk loop of updater.py lines 147-154: an empty chunk is
skipped entirely; otherwise the byte count advances, a percentage is
emitted when `content-length` was present (nonzero), and the running
byte count is reported. The float expression
`int((downloaded / total) * 100)` is modelled by natural division;
both are monotone in `downloaded`. Returns the events and the final
byte count. -/
def processChunks : List Nat → Nat → Nat → List Ev × Nat
  | [], _, d => ([], d)
  | c :: rest, total, d =>
    if c = 0 then processChunks rest total d
    else
      let d2 := d + c
      let evs1 : List Ev :=
        if total = 0 then [Ev.statusDownloading d2]
        else [Ev.progress (d2 * 100 / total), Ev.statusDownloading d2]
      let p := processChunks rest total d2
      (evs1 ++ p.1, p.2)

/-- updater.py lines 135-160. `getResult` is the outcome of
`requests.get` itself (`.error` = the call raised); a response with a
non-success status makes `raise_for_status` raise before the
destination file is opened. Any exception lands in the `except` block,
which emits an error status and then the terminal `completed_signal`. -/
def DownloadThread.run (getResult : Except String HttpResp)
    (download_path : String) : RunResult :=
  match getResult with
  | .error e =>
    { events := [.status "Starting download...",
                 .status ("Error: " ++ e), .completed false e],
      fileOpened := false, bytesWritten := 0 }
  | .ok r =>
    if r.statusOk then
      let p := processChunks r.chunks r.totalSize 0
      match r.midError with
      | some e =>
        { events := .status "Starting download..." ::
            (p.1 ++ [.status ("Error: " ++ e), .completed false e]),
          fileOpened := true, bytesWritten := p.2 }
      | none =>
        { events := .status "Starting download..." ::
            (p.1 ++ [.status "Download completed!",
                     .completed true download_path]),
          fileOpened := true, bytesWritten := p.2 }
    else
      { events := [.status "Starting download...",
                   .status ("Error: " ++ r.errText),
                   .completed false r.errText],
        fileOpened := false, bytesWritten := 0 }

/-- Extract the percentage carried by a progress event. -/
def pctOf : Ev → Option Nat
  | .progress p => some p
  | _ => none

/-- Extract the byte count carried by a downloading-status event. -/
def bytesOf : Ev → Option Nat
  | .statusDownloading b => some b
  | _ => none

/-- The terminal events: `completed_signal` with either outcome. -/
def isTerminalEv : Ev → Bool
  | .completed _ _ => true
  | _ => false

/-! ### Filesystem model, merge-install and installer
(`copy_with_overwrite` updater.py 506-521, `install_update` 459-504)

A directory is a finite labelled tree; directory listings are ordered
association lists, matching `os.listdir` iteration. File contents only
matter for the `version.json` descriptor, so a file carries either an
opaque payload (`bytes`) or a JSON object with an optional `version`
key (`jsonObj`); `bytes` also stands for content on which `json.load`
raises or whose parse result has no `.get`. -/

inductive FileData where
  | bytes (s : String)
  | jsonObj (version : Option String)

inductive FsTree where
  | file (d : FileData)
  | dir (entries : List (String × FsTree))

/-- First entry with the given name, as a path lookup in a directory
listing. -/
def lookupEntry (name : String) : List (String × FsTree) → Option FsTree
  | [] => none
  | (k, u) :: rest => if k == name then some u else lookupEntry name rest

/-- Create or overwrite the entry with the given name. -/
def setEntry (name : String) (t : FsTree) :
    List (String × FsTree) → List (String × FsTree)
  | [] => [(name, t)]
  | (k, u) :: rest =>
    if k == name then (name, t) :: rest
    else (k, u) :: setEntry name t rest

/-- Entry of the given name directly inside a tree (none for a file). -/
def lookupName (name : String) : FsTree → Option FsTree
  | .file _ => none
  | .dir dc => lookupEntry name dc

/-- The guard of updater.py line 513:
`item.lower() == "updater.exe" or item.lower() == "updater.py"`.
`str.lower` is modelled per character (ASCII); the artifact names are
ASCII, so this agrees with Python on every name that can match. -/
def isUpdaterArtifact (item : String) : Bool :=
  (item.data.map Char.toLower == "updater.exe".data) ||
  (item.data.map Char.toLower == "updater.py".data)

/-- updater.py lines 506-521, with the destination directory threaded
through explicitly (the Python mutates it in place). Returns the
destination after the walk and whether the walk completed; `false`
models an exception escaping to `install_update`, with the first
component holding whatever had already been written when it was raised.

Per entry of the source listing, in order: the updater's own artifact
names are skipped; a source directory ensures a destination directory
exists (`os.makedirs`) and recurses; a source file is `shutil.copy2`-ed
over the destination path. The failure branches mirror the `OSError`s
Python raises: copying anything into a destination that is a plain
file, and `copy2` onto an existing directory (after `copy2`'s one-level
descent into a directory destination). -/
def copy_with_overwrite : List (String × FsTree) → FsTree → FsTree × Bool
  | [], dst => (dst, true)
  | (item, e) :: rest, dst =>
    if isUpdaterArtifact item then copy_with_overwrite rest dst
    else
      match dst, e with
      | FsTree.file c, _ => (FsTree.file c, false)
      | FsTree.dir dc, FsTree.dir children =>
        let r := copy_with_overwrite children
          ((lookupEntry item dc).getD (FsTree.dir []))
        if r.2 then copy_with_overwrite rest (FsTree.dir (setEntry item r.1 dc))
        else (FsTree.dir (setEntry item r.1 dc), false)
      | FsTree.dir dc, FsTree.file c =>
        match lookupEntry item dc with
        | some (FsTree.dir ddc) =>
          match lookupEntry item ddc with
          | some (FsTree.dir _) => (FsTree.dir dc, false)
          | _ => copy_with_overwrite rest
              (FsTree.dir (setEntry item
                (FsTree.dir (setEntry item (FsTree.file c) ddc)) dc))
        | _ => copy_with_overwrite rest (FsTree.dir (setEntry item (FsTree.file c) dc))
  termination_by l _ => sizeOf l

/-- The persisted `updater_config.json` contents. -/
structure Config where
  app_name : String
  current_version : String
  update_url : String
  website_url : String

/-- Outcome of one `install_update` call: the live directory afterwards,
the in-memory config, the on-disk config, whether the success dialog was
shown, and whether the merge step (`copy_with_overwrite`) was reached. -/
structure InstallResult where
  live : FsTree
  config : Config
  persisted : Config
  success : Bool
  mergeAttempted : Bool

/-- updater.py lines 459-504. `extracted` is the result of
`ZipFile(...).extractall` into the staging directory: `none` models the
extraction raising (corrupt archive, unsupported format, disk-full),
which the outer `except` turns into the failure dialog before
`copy_with_overwrite` runs. On a completed merge the inner `try` of
lines 477-488 reads an optional root `version.json`: a directory there
or unparsable content raises inside the inner `try` (non-fatal, config
not rewritten); `saveOk` says whether rewriting `updater_config.json`
succeeds, a failure of which is likewise swallowed. -/
def install_update (extracted : Option (List (String × FsTree)))
    (live : FsTree) (cfg persisted : Config) (saveOk : Bool) : InstallResult :=
  match extracted with
  | none =>
    { live := live, config := cfg, persisted := persisted,
      success := false, mergeAttempted := false }
  | some tree =>
    let merged := copy_with_overwrite tree live
    if merged.2 then
      match lookupEntry "version.json" tree with
      | some (FsTree.file (FileData.jsonObj v)) =>
        let cfg2 := { cfg with current_version := v.getD cfg.current_version }
        { live := merged.1, config := cfg2,
          persisted := if saveOk then cfg2 else persisted,
          success := true, mergeAttempted := true }
      | some (FsTree.file (FileData.bytes _)) =>
        { live := merged.1, config := cfg, persisted := persisted,
          success := true, mergeAttempted := true }
      | some (FsTree.dir _) =>
        { live := merged.1, config := cfg, persisted := persisted,
          success := true, mergeAttempted := true }
      | none =>
        { live := merged.1, config := cfg,
          persisted := if saveOk then cfg else persisted,
          success := true, mergeAttempted := true }
    else
      { live := merged.1, config := cfg, persisted := persisted,
        success := false, mergeAttempted := true }

/-! ### Concrete fixtures used by the witness theorems -/

def cfgEx : Config :=
  { app_name := "YourApp", current_version := "1.0.0",
    update_url := "https://example.org/latest.json",
    website_url := "https://example.org/" }

/-- A package that tries to smuggle in its own `updater.py`. -/
def srcEx : List (String × FsTree) :=
  [("updater.py", FsTree.file (FileData.bytes "evil")),
   ("readme.txt", FsTree.file (FileData.bytes "new"))]

def dstEx : FsTree :=
  FsTree.dir [("updater.py", FsTree.file (FileData.bytes "orig"))]

/-- An extracted package with no `version.json` descriptor. -/
def treeEx : List (String × FsTree) :=
  [("app.txt", FsTree.file (FileData.bytes "x"))]

def chkStEx : CheckState :=
  { update_available := false, update_url := none, update_notes := "",
    download_btn_enabled := false, notes_visible := false, status := "" }

def dlStEx : DlState :=
  { update_available := false, update_url := some "https://example.org/pkg.zip",
    progress_value := 37, progress_visible := true,
    check_btn_enabled := true, download_btn_enabled := true, started := none }

def respEx : HttpResp :=
  { statusOk := false, errText := "404 Client Error", totalSize := 0,
    chunks := [], midError := none }

/-! ## Theorems -/

/-! ### Version comparison helpers -/

/-- Python tuple `>` agrees with lexicographic order on the parsed
integer lists: `pyTupleGt x y` holds exactly when `y` is
lexicographically below `x`. -/
theorem pyTupleGt_iff_lex : ∀ x y : List Int,
    pyTupleGt x y = true ↔ List.Lex (· < ·) y x := by
  intro x
  induction x with
  | nil =>
    intro y
    cases y with
    | nil =>
      simp only [pyTupleGt, Bool.false_eq_true, false_iff]
      intro h; cases h
    | cons b bs =>
      simp only [pyTupleGt, Bool.false_eq_true, false_iff]
      intro h; cases h
  | cons a as ih =>
    intro y
    cases y with
    | nil =>
      simp only [pyTupleGt, true_iff]
      exact List.Lex.nil
    | cons b bs =>
      simp only [pyTupleGt]
      rcases lt_trichotomy b a with hba | hba | hba
      · simp only [if_pos hba, true_iff]
        exact List.Lex.rel hba
      · subst hba
        rw [if_neg (lt_irrefl b), if_neg (lt_irrefl b), ih bs]
        constructor
        · exact fun h => List.Lex.cons h
        · intro h
          cases h with
          | cons h => exact h
          | rel h => exact absurd h (lt_irrefl b)
      · rw [if_neg (not_lt_of_gt hba), if_pos hba]
        simp only [Bool.false_eq_true, false_iff]
        intro h
        cases h with
        | cons h' => exact absurd rfl (ne_of_gt hba)
        | rel h' => exact absurd h' (not_lt_of_gt hba)

/-- When the two tuples agree on their shared prefix, Python tuple `>`
reduces to comparing the lengths: the longer tuple is the greater one. -/
theorem pyTupleGt_take_eq : ∀ x y : List Int,
    x.take (min x.length y.length) = y.take (min x.length y.length) →
    pyTupleGt x y = decide (y.length < x.length) := by
  intro x
  induction x with
  | nil =>
    intro y _
    cases y with
    | nil => rfl
    | cons b bs => simp [pyTupleGt]
  | cons a as ih =>
    intro y h
    cases y with
    | nil => simp [pyTupleGt]
    | cons b bs =>
      rw [List.length_cons, List.length_cons, Nat.succ_min_succ,
        List.take_succ_cons, List.take_succ_cons] at h
      obtain ⟨hab, htk⟩ := List.cons.injEq .. ▸ h
      subst hab
      simp only [pyTupleGt, lt_irrefl, if_neg (lt_irrefl a), ite_self]
      rw [ih bs htk]
      simp [Nat.succ_lt_succ_iff]

/-! ### Claim C1 -/

/-- Claim C1, counterexample. The claim asserts that
`isNewer("1.2.0","1.10.0")` is true; on the code it is false, because
the parsed tuple `(1,2,0)` is numerically below `(1,10,0)` and the
claim's own universal part then requires the result `false`. -/
theorem C1_cex : is_newer_version "1.2.0" "1.10.0" = false := by rfl

/-- Claim C1, amended. For well-formed dot-separated version strings
with the same number of components, `is_newer_version a b` is true
exactly when the integer tuple of `a` is lexicographically greater than
that of `b`; in particular `isNewer("1.10.0","1.2.0")` is true (numeric,
not string, comparison — stringwise "1.10.0" < "1.2.0"),
`isNewer("2.0.0","1.9.9")` is true, and `isNewer("1.0.0","1.0.0")` is
false. Only the direction of the first example changes relative to the
claim. -/
theorem C1_amended :
    (∀ a b va vb, parseVersion a = some va → parseVersion b = some vb →
      va.length = vb.length →
      (is_newer_version a b = true ↔ List.Lex (· < ·) vb va)) ∧
    is_newer_version "1.10.0" "1.2.0" = true ∧
    is_newer_version "2.0.0" "1.9.9" = true ∧
    is_newer_version "1.0.0" "1.0.0" = false := by
  refine ⟨?_, by rfl, by rfl, by rfl⟩
  intro a b va vb ha hb _
  unfold is_newer_version
  rw [ha, hb]
  exact pyTupleGt_iff_lex va vb

/-- Claim C1, witness: the amended equivalence applied to the concrete
pair `"2.0.0"`, `"1.9.9"`. -/
theorem C1_wit :
    is_newer_version "2.0.0" "1.9.9" = true ∧
    List.Lex (· < ·) ([1, 9, 9] : List Int) [2, 0, 0] := by
  have hl : List.Lex (· < ·) ([1, 9, 9] : List Int) [2, 0, 0] :=
    List.Lex.rel (by norm_num)
  have h := (C1_amended.1 "2.0.0" "1.9.9" [2, 0, 0] [1, 9, 9] rfl rfl rfl).mpr hl
  exact ⟨h, hl⟩

/-! ### Claim C5 -/

/-- Claim C5, counterexample. The claim asserts that versions equal up
to the shorter component count compare as equal in both argument
orders; on the code `isNewer("1.2.0","1.2")` is true, because Python
orders a proper prefix strictly below the longer tuple. -/
theorem C5_cex : is_newer_version "1.2.0" "1.2" = true := by rfl

/-- Claim C5, amended. For well-formed version strings whose parsed
tuples agree on their shared prefix, `is_newer_version a b` is true
exactly when `a` has strictly more components than `b` (so the two
orders agree — and return false — only when the component counts are
equal). -/
theorem C5_amended : ∀ a b va vb,
    parseVersion a = some va → parseVersion b = some vb →
    va.take (min va.length vb.length) = vb.take (min va.length vb.length) →
    is_newer_version a b = decide (vb.length < va.length) := by
  intro a b va vb ha hb htk
  unfold is_newer_version
  rw [ha, hb]
  exact pyTupleGt_take_eq va vb htk

/-- Claim C5, witness: the amended statement applied to `"1.2"` versus
`"1.2.0"`, giving false for the shorter-first order. -/
theorem C5_wit : is_newer_version "1.2" "1.2.0" = false := by
  have h := C5_amended "1.2" "1.2.0" [1, 2] [1, 2, 0] rfl rfl (by rfl)
  simpa using h

/-! ### Claim C6 -/

/-- Claim C6, confirmed. Whenever at least one of the two version
strings fails to parse as dot-separated integers, `is_newer_version`
returns the string inequality `a != b` (the bare `except` fallback of
updater.py line 420). -/
theorem C6_thm : ∀ a b : String,
    parseVersion a = none ∨ parseVersion b = none →
    is_newer_version a b = (a != b) := by
  intro a b h
  rcases h with h | h
  · cases hb : parseVersion b <;> simp [is_newer_version, h, hb]
  · cases ha : parseVersion a <;> simp [is_newer_version, h, ha]

/-- Claim C6, witness: `"abc"` does not parse, so the comparison with
`"1.0"` falls back to string inequality, which is true. -/
theorem C6_wit : is_newer_version "abc" "1.0" = true := by
  have h := C6_thm "abc" "1.0" (Or.inl rfl)
  exact h.trans (by rfl)

/-! ### Claim C4 -/

/-- Claim C4, counterexample. A manifest body with no `version` key is
not rejected: `check_for_updates` runs the comparison with `None`,
whose fallback (`None != current`) is always true, reports
"Update available: vNone" and enables the download — the code has no
malformed-manifest check at all. -/
theorem C4_cex :
    (check_for_updates chkStEx "1.0.0"
      (.ok { version := none,
             download_url := some "https://example.org/pkg.zip",
             notes := none })).update_available = true ∧
    (check_for_updates chkStEx "1.0.0"
      (.ok { version := none,
             download_url := some "https://example.org/pkg.zip",
             notes := none })).status = "Update available: vNone" := by
  exact ⟨rfl, rfl⟩

/-- Claim C4, amended. A response missing `version` or `download_url`
is not surfaced as a malformed-manifest error: the check proceeds. A
missing `version` falls into the string-inequality fallback, which
reports an update available, and the retained download URL is always
exactly the manifest's `download_url` field (absent when the key is
missing, which only makes a later download request a no-op). -/
theorem C4_amended : ∀ (st : CheckState) (current : String) (m : ManifestJson),
    (m.version = none →
      (check_for_updates st current (.ok m)).update_available = true ∧
      (check_for_updates st current (.ok m)).download_btn_enabled = true) ∧
    (check_for_updates st current (.ok m)).update_url = m.download_url := by
  intro st current m
  constructor
  · intro hv
    simp [check_for_updates, isNewerPy, hv]
  · by_cases hn : isNewerPy m.version current = true
    · simp [check_for_updates, hn]
    · simp [check_for_updates, hn]

/-- Claim C4, witness: the amended statement applied to a manifest
missing both `version` and `download_url`. -/
theorem C4_wit :
    (check_for_updates chkStEx "1.0.0"
      (.ok { version := none, download_url := none, notes := none })).update_available = true ∧
    (check_for_updates chkStEx "1.0.0"
      (.ok { version := none, download_url := none, notes := none })).update_url = none := by
  have h := C4_amended chkStEx "1.0.0"
    { version := none, download_url := none, notes := none }
  exact ⟨(h.1 rfl).1, h.2⟩

/-! ### Claim C10 -/

/-- Claim C10, confirmed. When no update is available, or no download
URL was retained from the last manifest check (attribute `None` or the
falsy empty string), `download_update` returns with the state —
progress bar, buttons and worker — completely untouched. -/
theorem C10_thm : ∀ st : DlState,
    st.update_available = false ∨ st.update_url = none ∨ st.update_url = some "" →
    download_update st = st := by
  intro st h
  unfold download_update
  rcases h with h | h | h <;> simp [pyFalsyUrl, h]

/-- Claim C10, witness: a state with a retained URL but no update
available is returned unchanged. -/
theorem C10_wit : download_update dlStEx = dlStEx :=
  C10_thm dlStEx (Or.inl rfl)

/-! ### Claim C7 -/

/-- Claim C7, confirmed. A response with a non-success HTTP status makes
`raise_for_status` raise before `open(self.download_path, 'wb')` runs:
the run emits only the start status, the error status, and the terminal
failure, with the destination file never opened and zero bytes
written. -/
theorem C7_thm : ∀ (r : HttpResp) (path : String), r.statusOk = false →
    (DownloadThread.run (.ok r) path).fileOpened = false ∧
    (DownloadThread.run (.ok r) path).bytesWritten = 0 ∧
    (DownloadThread.run (.ok r) path).events =
      [.status "Starting download...", .status ("Error: " ++ r.errText),
       .completed false r.errText] := by
  intro r path h
  simp [DownloadThread.run, h]

/-- Claim C7, witness: a 404 response applied to the theorem. -/
theorem C7_wit :
    (DownloadThread.run (.ok respEx) "/tmp/update.zip").fileOpened = false ∧
    (DownloadThread.run (.ok respEx) "/tmp/update.zip").bytesWritten = 0 ∧
    (DownloadThread.run (.ok respEx) "/tmp/update.zip").events =
      [.status "Starting download...", .status ("Error: " ++ respEx.errText),
       .completed false respEx.errText] :=
  C7_thm respEx "/tmp/update.zip" rfl

/-! ### Claim C9 -/

/-- The chunk loop emits no terminal event; its percentages and its
byte counts are each emitted in non-decreasing order and bounded below
by the values at the incoming byte count; and the byte count only
grows. -/
theorem processChunks_spec : ∀ (chunks : List Nat) (total d : Nat),
    d ≤ (processChunks chunks total d).2 ∧
    ((processChunks chunks total d).1.filterMap pctOf).Pairwise (· ≤ ·) ∧
    (∀ q ∈ (processChunks chunks total d).1.filterMap pctOf, d * 100 / total ≤ q) ∧
    ((processChunks chunks total d).1.filterMap bytesOf).Pairwise (· ≤ ·) ∧
    (∀ q ∈ (processChunks chunks total d).1.filterMap bytesOf, d ≤ q) ∧
    (processChunks chunks total d).1.countP isTerminalEv = 0 := by
  intro chunks
  induction chunks with
  | nil => intro total d; simp [processChunks]
  | cons c rest ih =>
    intro total d
    by_cases hc : c = 0
    · simpa [processChunks, hc] using ih total d
    · obtain ⟨ihd, ihp, ihpb, ihb, ihbb, iht⟩ := ih total (d + c)
      have hdd : d ≤ d + c := Nat.le_add_right d c
      have hpct : d * 100 / total ≤ (d + c) * 100 / total :=
        Nat.div_le_div_right (Nat.mul_le_mul_right 100 hdd)
      have hfp : (processChunks (c :: rest) total d).1.filterMap pctOf =
          (if total = 0 then ([] : List Nat) else [(d + c) * 100 / total]) ++
            (processChunks rest total (d + c)).1.filterMap pctOf := by
        by_cases ht : total = 0 <;> simp [processChunks, hc, ht, pctOf]
      have hfb : (processChunks (c :: rest) total d).1.filterMap bytesOf =
          (d + c) :: (processChunks rest total (d + c)).1.filterMap bytesOf := by
        by_cases ht : total = 0 <;> simp [processChunks, hc, ht, pctOf, bytesOf]
      have hct : (processChunks (c :: rest) total d).1.countP isTerminalEv =
          (processChunks rest total (d + c)).1.countP isTerminalEv := by
        by_cases ht : total = 0 <;> simp [processChunks, hc, ht, isTerminalEv]
      have h2 : (processChunks (c :: rest) total d).2 =
          (processChunks rest total (d + c)).2 := by
        simp [processChunks, hc]
      refine ⟨?_, ?_, ?_, ?_, ?_, ?_⟩
      · rw [h2]; exact le_trans hdd ihd
      · rw [hfp]
        by_cases ht : total = 0
        · simpa [ht] using ihp
        · rw [if_neg ht, List.singleton_append]
          exact List.pairwise_cons.mpr ⟨fun q hq => ihpb q hq, ihp⟩
      · rw [hfp]
        intro q hq
        rcases List.mem_append.mp hq with hq | hq
        · by_cases ht : total = 0
          · simp [ht] at hq
          · rw [if_neg ht] at hq
            simp only [List.mem_singleton] at hq
            exact hq ▸ hpct
        · exact le_trans hpct (ihpb q hq)
      · rw [hfb]
        exact List.pairwise_cons.mpr ⟨fun q hq => ihbb q hq, ihb⟩
      · rw [hfb]
        intro q hq
        rcases List.mem_cons.mp hq with hq | hq
        · exact hq ▸ hdd
        · exact le_trans hdd (ihbb q hq)
      · rw [hct]; exact iht

/-- Claim C9, confirmed. For every download run, the emitted percentage
values and the emitted byte counts are each in non-decreasing order,
and exactly one terminal `completed_signal` event is emitted, as the
very last event of the run. -/
theorem C9_thm : ∀ (g : Except String HttpResp) (path : String),
    ((DownloadThread.run g path).events.filterMap pctOf).Pairwise (· ≤ ·) ∧
    ((DownloadThread.run g path).events.filterMap bytesOf).Pairwise (· ≤ ·) ∧
    (DownloadThread.run g path).events.countP isTerminalEv = 1 ∧
    ∃ pre e, (DownloadThread.run g path).events = pre ++ [e] ∧
      isTerminalEv e = true := by
  intro g path
  match g with
  | .error e =>
    refine ⟨?_, ?_, ?_,
      ⟨[.status "Starting download...", .status ("Error: " ++ e)],
       .completed false e, ?_, rfl⟩⟩ <;>
      simp [DownloadThread.run, pctOf, bytesOf, isTerminalEv]
  | .ok r =>
    cases hs : r.statusOk with
    | false =>
      refine ⟨?_, ?_, ?_,
        ⟨[.status "Starting download...", .status ("Error: " ++ r.errText)],
         .completed false r.errText, ?_, rfl⟩⟩ <;>
        simp [DownloadThread.run, hs, pctOf, bytesOf, isTerminalEv]
    | true =>
      obtain ⟨-, hp, -, hb, -, ht⟩ := processChunks_spec r.chunks r.totalSize 0
      cases hm : r.midError with
      | some e =>
        have hev : (DownloadThread.run (.ok r) path).events =
            Ev.status "Starting download..." ::
              ((processChunks r.chunks r.totalSize 0).1 ++
               [Ev.status ("Error: " ++ e), Ev.completed false e]) := by
          simp [DownloadThread.run, hs, hm]
        refine ⟨?_, ?_, ?_,
          ⟨Ev.status "Starting download..." ::
            ((processChunks r.chunks r.totalSize 0).1 ++
             [Ev.status ("Error: " ++ e)]),
           Ev.completed false e, ?_, rfl⟩⟩
        · rw [hev]
          simpa [pctOf, List.filterMap_cons, List.filterMap_append] using hp
        · rw [hev]
          simpa [bytesOf, List.filterMap_cons, List.filterMap_append] using hb
        · rw [hev]
          simp [List.countP_cons, List.countP_append, isTerminalEv, ht]
        · rw [hev]; simp
      | none =>
        have hev : (DownloadThread.run (.ok r) path).events =
            Ev.status "Starting download..." ::
              ((processChunks r.chunks r.totalSize 0).1 ++
               [Ev.status "Download completed!", Ev.completed true path]) := by
          simp [DownloadThread.run, hs, hm]
        refine ⟨?_, ?_, ?_,
          ⟨Ev.status "Starting download..." ::
            ((processChunks r.chunks r.totalSize 0).1 ++
             [Ev.status "Download completed!"]),
           Ev.completed true path, ?_, rfl⟩⟩
        · rw [hev]
          simpa [pctOf, List.filterMap_cons, List.filterMap_append] using hp
        · rw [hev]
          simpa [bytesOf, List.filterMap_cons, List.filterMap_append] using hb
        · rw [hev]
          simp [List.countP_cons, List.countP_append, isTerminalEv, ht]
        · rw [hev]; simp

/-! ### Claim C2 -/

/-- A Boolean that is not true is false. -/
theorem bool_ne_true {b : Bool} (h : ¬ b = true) : b = false := by
  cases b
  · rfl
  · exact absurd rfl h

/-- Writing one entry leaves every other name's lookup unchanged. -/
theorem lookupEntry_setEntry_ne :
    ∀ (l : List (String × FsTree)) (n m : String) (t : FsTree), n ≠ m →
    lookupEntry n (setEntry m t l) = lookupEntry n l := by
  intro l n m t hnm
  induction l with
  | nil =>
    simp [setEntry, lookupEntry, Ne.symm hnm]
  | cons p rest ih =>
    obtain ⟨k, u⟩ := p
    by_cases hk : k = m
    · subst hk
      simp [setEntry, lookupEntry, Ne.symm hnm]
    · simp only [setEntry, lookupEntry]
      rw [if_neg (by simpa using hk)]
      simp only [lookupEntry]
      by_cases hkn : k = n
      · simp [hkn]
      · rw [if_neg (by simpa using hkn), if_neg (by simpa using hkn)]
        exact ih

/-- Distinct truth values of the artifact guard force distinct names. -/
theorem artifact_ne {n m : String} (h1 : isUpdaterArtifact n = true)
    (h2 : ¬ isUpdaterArtifact m = true) : n ≠ m := by
  intro h
  rw [h] at h1
  exact h2 h1

/-- Claim C2, confirmed. At every level of the recursive merge — the
same function is what runs at every directory depth — an entry of the
destination whose name case-insensitively matches `updater.exe` or
`updater.py` is left exactly as it was, whether or not the package
contains an entry of that name, and whether or not the walk completed. -/
theorem C2_thm : ∀ (src : List (String × FsTree)) (dst : FsTree) (n : String),
    isUpdaterArtifact n = true →
    lookupName n (copy_with_overwrite src dst).1 = lookupName n dst := by
  intro src dst n hn
  induction src, dst using copy_with_overwrite.induct with
  | case1 dst =>
    simp [copy_with_overwrite]
  | case2 item e rest dst hskip ih =>
    rw [show copy_with_overwrite ((item, e) :: rest) dst =
      copy_with_overwrite rest dst from by
        rw [copy_with_overwrite.eq_def]
        simp only [hskip, if_true]]
    exact ih
  | case3 item e rest hns c =>
    rw [show copy_with_overwrite ((item, e) :: rest) (FsTree.file c) =
      (FsTree.file c, false) from by
        rw [copy_with_overwrite]
        rw [if_neg hns]]
  | case4 item rest hns dc children r hr ihc ihr =>
    have hr' : (copy_with_overwrite children
        ((lookupEntry item dc).getD (FsTree.dir []))).2 = true := hr
    rw [show copy_with_overwrite ((item, FsTree.dir children) :: rest) (FsTree.dir dc) =
      copy_with_overwrite rest (FsTree.dir (setEntry item
        (copy_with_overwrite children
          ((lookupEntry item dc).getD (FsTree.dir []))).1 dc)) from by
        rw [copy_with_overwrite]
        rw [if_neg hns]
        simp only [hr', if_true]]
    exact ihr.trans (lookupEntry_setEntry_ne dc n item _ (artifact_ne hn hns))
  | case5 item rest hns dc children r hr ihc =>
    have hr' : ¬ (copy_with_overwrite children
        ((lookupEntry item dc).getD (FsTree.dir []))).2 = true := hr
    rw [show copy_with_overwrite ((item, FsTree.dir children) :: rest) (FsTree.dir dc) =
      (FsTree.dir (setEntry item
        (copy_with_overwrite children
          ((lookupEntry item dc).getD (FsTree.dir []))).1 dc), false) from by
        rw [copy_with_overwrite]
        rw [if_neg hns]
        simp [bool_ne_true hr']]
    exact lookupEntry_setEntry_ne dc n item _ (artifact_ne hn hns)
  | case6 item rest hns dc c entries houter entries1 hinner =>
    rw [show copy_with_overwrite ((item, FsTree.file c) :: rest) (FsTree.dir dc) =
      (FsTree.dir dc, false) from by
        rw [copy_with_overwrite]
        rw [if_neg hns]
        simp only [houter, hinner]]
  | case7 item rest hns dc c entries houter hinner ihr =>
    rw [show copy_with_overwrite ((item, FsTree.file c) :: rest) (FsTree.dir dc) =
      copy_with_overwrite rest (FsTree.dir (setEntry item
        (FsTree.dir (setEntry item (FsTree.file c) entries)) dc)) from by
        rw [copy_with_overwrite]
        rw [if_neg hns]
        simp only [houter]]
    exact ihr.trans (lookupEntry_setEntry_ne dc n item _ (artifact_ne hn hns))
  | case8 item rest hns dc c houter ihr =>
    rw [show copy_with_overwrite ((item, FsTree.file c) :: rest) (FsTree.dir dc) =
      copy_with_overwrite rest (FsTree.dir (setEntry item (FsTree.file c) dc)) from by
        rw [copy_with_overwrite]
        rw [if_neg hns]
        cases hld : lookupEntry item dc with
        | none => simp only [hld]
        | some t =>
          cases t with
          | file d => simp only [hld]
          | dir e1 => exact absurd hld (fun h => houter e1 h)]
    exact ihr.trans (lookupEntry_setEntry_ne dc n item _ (artifact_ne hn hns))

/-- Claim C2, witness: a package carrying its own `updater.py` merged
into a live directory whose `updater.py` survives unchanged. -/
theorem C2_wit :
    lookupName "updater.py" (copy_with_overwrite srcEx dstEx).1 =
      some (FsTree.file (FileData.bytes "orig")) := by
  rw [C2_thm srcEx dstEx "updater.py" (by rfl)]
  rfl

/-! ### Claim C3 -/

/-- Claim C3, confirmed. When extraction of the archive raises, the
whole install aborts with the failure dialog: the live directory is
exactly what it was, the in-memory and persisted configuration are
untouched, and the merge step is never reached. -/
theorem C3_thm : ∀ (live : FsTree) (cfg persisted : Config) (saveOk : Bool),
    install_update none live cfg persisted saveOk =
      { live := live, config := cfg, persisted := persisted,
        success := false, mergeAttempted := false } := by
  intro live cfg persisted saveOk
  rfl

/-! ### Claim C8 -/

/-- Claim C8, confirmed. When the merge completes and the extracted
package has no root `version.json`, the install reports success and the
persisted configuration's `current_version` is unchanged (the config
file is rewritten, but with the same version value; if even the rewrite
fails, the old file stays). -/
theorem C8_thm : ∀ (tree : List (String × FsTree)) (live : FsTree)
    (cfg persisted : Config) (saveOk : Bool),
    (copy_with_overwrite tree live).2 = true →
    lookupEntry "version.json" tree = none →
    persisted.current_version = cfg.current_version →
    (install_update (some tree) live cfg persisted saveOk).success = true ∧
    (install_update (some tree) live cfg persisted saveOk).persisted.current_version =
      persisted.current_version := by
  intro tree live cfg persisted saveOk hm hv hp
  unfold install_update
  simp only [hm, if_true, hv]
  cases saveOk <;> simp [hp]

/-- Claim C8, witness: a one-file package with no descriptor installed
over an empty live directory with a pristine config. -/
theorem C8_wit :
    (install_update (some treeEx) (FsTree.dir []) cfgEx cfgEx true).success = true ∧
    (install_update (some treeEx) (FsTree.dir []) cfgEx cfgEx true).persisted.current_version =
      "1.0.0" := by
  have hm : (copy_with_overwrite treeEx (FsTree.dir [])).2 = true := by
    have h1 : isUpdaterArtifact "app.txt" = false := by rfl
    simp [treeEx, copy_with_overwrite, h1, lookupEntry, setEntry]
  have h := C8_thm treeEx (FsTree.dir []) cfgEx cfgEx true hm (by rfl) rfl
  exact ⟨h.1, h.2.trans rfl⟩

end DkcUpdater
